import Mathlib

/-!
Shallow embedding of the networking core of bloomd (src/bloomd/networking.c),
covering the circular buffers, the terminator extraction, the write-path
state machine, the worker loop recheck, and the lock-acquisition traces.

Machine bytes are modelled as `Nat`; buffer memory is a total function
`Nat → Nat` from physical index to byte (malloc garbage is the constant 0).
Signed/unsigned C arithmetic is modelled with `Int` plus explicit `% 2^w`
where the width matters (`circbuf_avail_buf` computes in `uint32_t`).
-/

set_option maxRecDepth 16384

namespace BloomdNet

/-- INIT_CONN_BUF_SIZE from networking.c: initial ring capacity in bytes. -/
def INIT_CONN_BUF_SIZE : Nat := 4096

/-- CONN_BUF_MULTIPLIER from networking.c: growth factor for the rings. -/
def CONN_BUF_MULTIPLIER : Nat := 8

/-- Modulus of `uint32_t` arithmetic. -/
def U32 : Int := 2 ^ 32

/-- Modulus of `uint64_t` arithmetic. -/
def U64 : Int := 2 ^ 64

/-- The `circular_buffer` struct of networking.c. `buffer` maps a physical
index to the byte stored there; `allocated` records whether the `char *buffer`
pointer is non-NULL. -/
structure circular_buffer where
  write_cursor : Nat
  read_cursor : Nat
  buf_size : Nat
  buffer : Nat → Nat
  allocated : Bool

/-- A C `memcpy(dst + off, src, len)` on function-modelled memory. -/
def memcpy (dst : Nat → Nat) (off : Nat) (src : Nat → Nat) (len : Nat) : Nat → Nat :=
  fun i => if off ≤ i ∧ i < off + len then src (i - off) else dst i

/-- Freshly `malloc`ed memory: contents unspecified, modelled as zero bytes. -/
def mallocBytes : Nat → Nat := fun _ => 0

/-- A single byte store `buffer[t] = v`. -/
def storeByte (buffer : Nat → Nat) (t : Nat) (v : Nat) : Nat → Nat :=
  fun i => if i = t then v else buffer i

/-- `circbuf_alloc`: installs a fresh INIT_CONN_BUF_SIZE buffer. -/
def circbuf_alloc (buf : circular_buffer) : circular_buffer :=
  { buf with buf_size := INIT_CONN_BUF_SIZE, buffer := mallocBytes, allocated := true }

/-- `init_circular_buffer`: zeroes both cursors and allocates only when the
buffer pointer is NULL. -/
def init_circular_buffer (buf : circular_buffer) : circular_buffer :=
  let b := { buf with read_cursor := 0, write_cursor := 0 }
  if b.allocated then b else circbuf_alloc b

/-- `circbuf_reset`: zeroes the cursors and frees the buffer only if it has
grown beyond INIT_CONN_BUF_SIZE. -/
def circbuf_reset (buf : circular_buffer) : circular_buffer :=
  let b := { buf with read_cursor := 0, write_cursor := 0 }
  if b.buf_size > INIT_CONN_BUF_SIZE then
    { b with buf_size := 0, buffer := mallocBytes, allocated := false }
  else b

/-- `circbuf_avail_buf`. The second branch is computed in `uint32_t`
arithmetic in C (`buf_size` is `uint32_t`, the cursors are `int`), so it is
taken modulo 2^32; the first branch is plain non-negative `int` arithmetic. -/
def circbuf_avail_buf (buf : circular_buffer) : Nat :=
  if buf.write_cursor < buf.read_cursor then
    buf.read_cursor - buf.write_cursor - 1
  else
    (((buf.buf_size : Int) - buf.write_cursor + buf.read_cursor - 1) % U32).toNat

/-- `circbuf_grow_buf`: linearizes the content into a buffer of
CONN_BUF_MULTIPLIER times the size, cursors become `(0, logical_length)`. -/
def circbuf_grow_buf (buf : circular_buffer) : circular_buffer :=
  let new_size := buf.buf_size * CONN_BUF_MULTIPLIER
  if buf.write_cursor < buf.read_cursor then
    let bytes_written := buf.buf_size - buf.read_cursor
    let new_buf := memcpy mallocBytes 0 (fun i => buf.buffer (buf.read_cursor + i)) bytes_written
    let new_buf2 := memcpy new_buf bytes_written buf.buffer buf.write_cursor
    { write_cursor := bytes_written + buf.write_cursor, read_cursor := 0,
      buf_size := new_size, buffer := new_buf2, allocated := true }
  else
    let bytes_written := buf.write_cursor - buf.read_cursor
    let new_buf := memcpy mallocBytes 0 (fun i => buf.buffer (buf.read_cursor + i)) bytes_written
    { write_cursor := bytes_written, read_cursor := 0,
      buf_size := new_size, buffer := new_buf, allocated := true }

/-- The `while (avail < bytes) circbuf_grow_buf(buf)` loop at the top of
`circbuf_write`, with a structural bound of 64 growth steps: 64 steps
multiply the capacity by `8^64`, far past any `uint32_t` size, so the C loop
either stops earlier or is already deep in allocation-size overflow. No
state evaluated below grows even once. -/
def circbufGrowLoop : Nat → Nat → circular_buffer → circular_buffer
  | 0, _, buf => buf
  | Nat.succ fuel, bytes, buf =>
    if circbuf_avail_buf buf < bytes then circbufGrowLoop fuel bytes (circbuf_grow_buf buf)
    else buf

/-- `circbuf_write`: grows until there is room, then copies, wrapping past the
end of the buffer when needed. The C function always returns 0, so only the
state is returned. Note the wrap branch: the second `memcpy` copies from `in`
again (not `in + end_size`), exactly as the C source does. -/
def circbuf_write (buf : circular_buffer) (inb : Nat → Nat) (bytes : Nat) : circular_buffer :=
  let buf := circbufGrowLoop 64 bytes buf
  if buf.write_cursor < buf.read_cursor then
    { buf with buffer := memcpy buf.buffer buf.write_cursor inb bytes,
               write_cursor := buf.write_cursor + bytes }
  else
    let end_size := buf.buf_size - buf.write_cursor
    if end_size ≥ bytes then
      { buf with buffer := memcpy buf.buffer buf.write_cursor inb bytes,
                 write_cursor := buf.write_cursor + bytes }
    else
      let b1 := memcpy buf.buffer buf.write_cursor inb end_size
      let b2 := memcpy b1 0 inb (bytes - end_size)
      { buf with buffer := b2, write_cursor := bytes - end_size }

/-- `circbuf_advance_write`: cursor moves modulo capacity. -/
def circbuf_advance_write (buf : circular_buffer) (bytes : Nat) : circular_buffer :=
  { buf with write_cursor := (buf.write_cursor + bytes) % buf.buf_size }

/-- `circbuf_advance_read`: cursor moves modulo capacity; if the cursors then
coincide both are reset to 0. -/
def circbuf_advance_read (buf : circular_buffer) (bytes : Nat) : circular_buffer :=
  let b := { buf with read_cursor := (buf.read_cursor + bytes) % buf.buf_size }
  if b.read_cursor = b.write_cursor then { b with read_cursor := 0, write_cursor := 0 } else b

/-- One slice of ring memory, as handed to `readv`/`writev`: a base offset
into the ring's buffer plus a length. -/
structure iovec where
  iov_base : Nat
  iov_len : Nat

/-- `circbuf_setup_writev_iovec`: the readable region as one or two slices. -/
def circbuf_setup_writev_iovec (buf : circular_buffer) : List iovec :=
  if buf.write_cursor < buf.read_cursor then
    [⟨buf.read_cursor, buf.buf_size - buf.read_cursor⟩, ⟨0, buf.write_cursor⟩]
  else
    [⟨buf.read_cursor, buf.write_cursor - buf.read_cursor⟩]

/-- The bytes a slice describes, in order. -/
def iovec_bytes (buf : circular_buffer) (v : iovec) : List Nat :=
  (List.range v.iov_len).map (fun i => buf.buffer (v.iov_base + i))

/-- The readable content of the ring: the concatenation of the bytes of the
`writev` iovecs, in read order. This is exactly what a full `writev` drain of
the ring would put on the wire. -/
def circbuf_readable (buf : circular_buffer) : List Nat :=
  ((circbuf_setup_writev_iovec buf).map (iovec_bytes buf)).flatten

/-- Logical length of the ring content (number of readable bytes), as the
wrap-aware cursor difference. -/
def circbuf_len (buf : circular_buffer) : Nat :=
  if buf.write_cursor < buf.read_cursor then
    buf.buf_size - buf.read_cursor + buf.write_cursor
  else
    buf.write_cursor - buf.read_cursor

/-- C `memchr(buffer + off, c, len)` on function-modelled memory: physical
index of the first occurrence of `c` in `[off, off + len)`. -/
def memchr (buffer : Nat → Nat) (c : Nat) : Nat → Nat → Option Nat
  | _, 0 => none
  | off, Nat.succ n => if buffer off = c then some off else memchr buffer c (off + 1) n

/-- The output parameters `*buf`/`*buf_len`/`*should_free` that
`extract_to_terminator` sets on success. `out_buf i` is byte `i` of the
returned buffer. -/
structure extract_result where
  buf_len : Nat
  out_buf : Nat → Nat
  should_free : Bool

/-- The cursor reset at the end of `extract_to_terminator` (also present in
`circbuf_advance_read`): if the read cursor has caught up with the write
cursor, both are reset to 0. -/
def resetIfCaughtUp (b : circular_buffer) : circular_buffer :=
  if b.read_cursor = b.write_cursor then { b with read_cursor := 0, write_cursor := 0 } else b

/-- `extract_to_terminator` from networking.c, acting on the connection's
input ring. Returns `some` of the output parameters when the function
returns 0, `none` when it returns -1, paired with the ring afterwards. -/
def extract_to_terminator (input : circular_buffer) (terminator : Nat) :
    Option extract_result × circular_buffer :=
  if input.write_cursor < input.read_cursor then
    match memchr input.buffer terminator input.read_cursor
        (input.buf_size - input.read_cursor) with
    | some t =>
      let newbuffer := storeByte input.buffer t 0
      (some { buf_len := t - input.read_cursor + 1,
              out_buf := fun i => newbuffer (input.read_cursor + i),
              should_free := false },
       resetIfCaughtUp { input with buffer := newbuffer, read_cursor := t + 1 })
    | none =>
      match memchr input.buffer terminator 0 input.write_cursor with
      | some t =>
        let start_size := t + 1
        let end_size := input.buf_size - input.read_cursor
        let newbuffer := storeByte input.buffer t 0
        (some { buf_len := start_size + end_size,
                out_buf := fun i =>
                  if i < end_size then input.buffer (input.read_cursor + i)
                  else newbuffer (i - end_size),
                should_free := true },
         resetIfCaughtUp { input with buffer := newbuffer, read_cursor := start_size })
      | none => (none, resetIfCaughtUp input)
  else
    match memchr input.buffer terminator input.read_cursor
        (input.write_cursor - input.read_cursor) with
    | some t =>
      let newbuffer := storeByte input.buffer t 0
      (some { buf_len := t - input.read_cursor + 1,
              out_buf := fun i => newbuffer (input.read_cursor + i),
              should_free := false },
       resetIfCaughtUp { input with buffer := newbuffer, read_cursor := t + 1 })
    | none => (none, resetIfCaughtUp input)

/-- The watchers attached to a connection or listener. -/
inductive Watcher
  | readWatcher
  | writeWatcher
  | tcpListener
  | udpListener
deriving DecidableEq, Repr

/-- An async command: `ASYNC_EVENT_TYPE` together with the target watcher of
`SCHEDULE_WATCHER`. -/
inductive AsyncCmd
  | EXIT
  | SCHEDULE_WATCHER (w : Watcher)
deriving DecidableEq, Repr

/-- The `conn_info` record fields the claims are about. -/
structure conn_info where
  use_write_buf : Bool
  should_schedule : Bool
  input : circular_buffer
  output : circular_buffer

/-- `close_client_connection`: stops scheduling, resets both rings, closes the
descriptor. It does not touch `use_write_buf`. -/
def close_client_connection (conn : conn_info) : conn_info :=
  { conn with should_schedule := false,
              input := circbuf_reset conn.input,
              output := circbuf_reset conn.output }

/-- The conn-record mutation performed by `handle_new_client` after `accept`
(networking.c lines 456-472): reinitialize both rings, mark schedulable, and
enqueue a SCHEDULE_WATCHER command for the read watcher. -/
def handle_new_client_conn (conn : conn_info) : conn_info × List AsyncCmd :=
  let conn2 := { conn with input := init_circular_buffer conn.input,
                           output := init_circular_buffer conn.output,
                           should_schedule := true }
  (conn2, [AsyncCmd.SCHEDULE_WATCHER .readWatcher])

/-- Outcome of a `writev` call, supplied by the kernel: either the byte count
it returned (0 means the peer closed) or -1 with transient/hard `errno`. -/
inductive WritevRes
  | sent (n : Nat)
  | error (transient : Bool)
deriving DecidableEq, Repr

/-- `handle_client_writebuf`: issues `writev` over the output ring's iovecs
(outcome `res`), advances the read cursor on success, closes on peer close or
hard error, and then either leaves BUFFERED mode (ring drained) or re-arms the
write watcher via the async queue. -/
def handle_client_writebuf (conn : conn_info) (res : WritevRes) : conn_info × List AsyncCmd :=
  let step : conn_info × Bool :=
    match res with
    | .sent 0 => (close_client_connection conn, false)
    | .sent (Nat.succ n) =>
        ({ conn with output := circbuf_advance_read conn.output (n + 1) }, true)
    | .error true => (conn, true)
    | .error false => (close_client_connection conn, false)
  let conn2 := step.1
  let reschedule := step.2
  if conn2.output.read_cursor = conn2.output.write_cursor then
    ({ conn2 with use_write_buf := false }, [])
  else if reschedule then (conn2, [AsyncCmd.SCHEDULE_WATCHER .writeWatcher])
  else (conn2, [])

/-- The `buf_sizes` array: callers pass each buffer's length. -/
def buf_sizes (bufs : List (List Nat)) (num_bufs : Nat) : List Nat :=
  (List.range num_bufs).map (fun i => (bufs.getD i []).length)

/-- The "figure out which buffer we left off on" loop of
`send_client_response_direct` (networking.c lines 835-848), walking the
`buf_sizes` array from `index` with accumulator `skip_bytes`; returns the
final `(skip_bytes, index)` pair. -/
def skipLoopGo (sent : Int) : Int → Nat → List Nat → Int × Nat
  | skip, index, [] => (skip, index)
  | skip, index, sz :: rest =>
    let skip2 := skip + (sz : Int)
    if skip2 > sent then
      if index = 0 then (0, 0) else (skip2 - sz, index - 1)
    else skipLoopGo sent skip2 (index + 1) rest

/-- The "copy the buffers" loop of `send_client_response_direct` (lines
851-859): for `i` from `index` to `num_bufs - 1`, pushes
`response_buffers[i] + offset` for `buf_sizes[i] - offset` bytes into the
output ring. The length is converted to `uint64_t` as in C. -/
def copyLoop (bufs : List (List Nat)) (num_bufs index : Nat) (skip sent : Int)
    (output : circular_buffer) : circular_buffer :=
  (List.range' index (num_bufs - index)).foldl
    (fun out i =>
      let sz : Nat := (bufs.getD i []).length
      let offset : Nat := if i = index ∧ skip < sent then (sent - skip).toNat else 0
      let bytes : Nat := (((sz : Int) - offset) % U64).toNat
      circbuf_write out (fun j => (bufs.getD i []).getD (offset + j) 0) bytes)
    output

/-- `send_client_response_direct`: `writev` the buffers directly (outcome
`res`); on a full write return 0; on a hard error close and return 1;
otherwise stash the remainder in the output ring, switch to buffered writes
and enqueue a SCHEDULE_WATCHER for the write watcher. -/
def send_client_response_direct (conn : conn_info) (bufs : List (List Nat)) (num_bufs : Nat)
    (res : WritevRes) : Nat × conn_info × List AsyncCmd :=
  let sizes := buf_sizes bufs num_bufs
  let total : Int := (sizes.map (fun n => (n : Int))).sum
  let sent : Int := match res with | .sent n => n | .error _ => -1
  if sent = total then (0, conn, [])
  else if res = WritevRes.error false then (1, close_client_connection conn, [])
  else
    let sk := skipLoopGo sent 0 0 sizes
    let output2 := copyLoop bufs num_bufs sk.2 sk.1 sent conn.output
    (0, { conn with output := output2, use_write_buf := true },
      [AsyncCmd.SCHEDULE_WATCHER .writeWatcher])

/-- The copy loop of `send_client_response_buffered` (lines 799-802):
append every buffer to the output ring in order. -/
def bufferedCopy (bufs : List (List Nat)) (num_bufs : Nat)
    (output : circular_buffer) : circular_buffer :=
  (List.range num_bufs).foldl
    (fun out i => circbuf_write out (fun j => (bufs.getD i []).getD j 0) (bufs.getD i []).length)
    output

/-- `send_client_response_buffered`: under the output lock, re-check the flag
(falling back to the direct path when it was cleared), else append every
buffer to the output ring. -/
def send_client_response_buffered (conn : conn_info) (bufs : List (List Nat)) (num_bufs : Nat)
    (res : WritevRes) : Nat × conn_info × List AsyncCmd :=
  if conn.use_write_buf = false then send_client_response_direct conn bufs num_bufs res
  else (0, { conn with output := bufferedCopy bufs num_bufs conn.output }, [])

/-- `send_client_response` (networking.c lines 774-784). `num_bufs` is the C
`int` argument; `res` is the kernel's answer should a direct `writev` be
issued. Returns the C return value, the connection afterwards, and the async
commands enqueued. -/
def send_client_response (conn : conn_info) (bufs : List (List Nat)) (num_bufs : Int)
    (res : WritevRes) : Nat × conn_info × List AsyncCmd :=
  if num_bufs ≤ 0 then (0, conn, [])
  else if conn.use_write_buf then send_client_response_buffered conn bufs num_bufs.toNat res
  else send_client_response_direct conn bufs num_bufs.toNat res

/-- What a worker does right after acquiring the leader lock. -/
inductive WorkerStep
  | runLoop
  | exitLoop
deriving DecidableEq, Repr

/-- The `should_run` recheck of `start_networking_worker` in
src/bloomd/networking.c (lines 661-665): exit when `should_run` is false,
otherwise proceed into `ev_run`. -/
def worker_recheck (should_run : Bool) : WorkerStep :=
  if !should_run then .exitLoop else .runLoop

/-- The same recheck in the earlier revision src/unnamed/part_000 (lines
232-236), where the condition is not negated. -/
def worker_recheck_old (should_run : Bool) : WorkerStep :=
  if should_run then .exitLoop else .runLoop

/-- The four locks named by the specification. -/
inductive Lock
  | leader
  | eventQueue
  | connsTable
  | output
deriving DecidableEq, Repr

/-- An acquire or release of one of the listed locks. -/
inductive LockOp
  | acq (l : Lock)
  | rel (l : Lock)
deriving DecidableEq, Repr

/-- `schedule_async` (lines 338-360): push under the event-queue spinlock. -/
def schedule_async_locks : List LockOp := [.acq .eventQueue, .rel .eventQueue]

/-- `handle_async_event` (lines 389-423): drain under the event-queue
spinlock; the handlers it runs (`ev_io_start`, `ev_break`) take no lock. -/
def handle_async_event_locks : List LockOp := [.acq .eventQueue, .rel .eventQueue]

/-- `handle_client_writebuf` (lines 527-572): the whole body runs under the
connection's output lock, and the reschedule branch calls `schedule_async`
before the unlock. -/
def handle_client_writebuf_locks (reschedule : Bool) : List LockOp :=
  [.acq .output] ++ (if reschedule then schedule_async_locks else []) ++ [.rel .output]

/-- `send_client_response_buffered` (lines 787-807): copies under the output
lock; the direct-path fallback first releases it. -/
def send_client_response_buffered_locks : List LockOp := [.acq .output, .rel .output]

/-- `send_client_response_direct` (lines 810-867): `schedule_async` runs with
no lock held. -/
def send_client_response_direct_locks : List LockOp := schedule_async_locks

/-- `get_fd_conn` (lines 1006-1045) when the table must grow. -/
def get_fd_conn_locks : List LockOp := [.acq .connsTable, .rel .connsTable]

/-- One `start_networking_worker` iteration (lines 648-680): `ev_run` executes
under the leader lock, and when the async watcher fires inside it,
`handle_async_event` takes the event-queue spinlock with the leader lock
held. -/
def worker_iteration_locks (asyncFired : Bool) : List LockOp :=
  [.acq .leader] ++ (if asyncFired then handle_async_event_locks else []) ++ [.rel .leader]

/-- `handle_new_client` (lines 432-473): table lookup, then `schedule_async`;
no nesting. -/
def handle_new_client_locks : List LockOp := get_fd_conn_locks ++ schedule_async_locks

/-- The lock-op traces of the core's code paths. -/
def corePaths : List (List LockOp) :=
  [schedule_async_locks, handle_async_event_locks,
   handle_client_writebuf_locks true, handle_client_writebuf_locks false,
   send_client_response_buffered_locks, send_client_response_direct_locks,
   get_fd_conn_locks, handle_new_client_locks,
   worker_iteration_locks true, worker_iteration_locks false]

/-- For each acquisition in a trace, the list of locks already held there. -/
def acquisitionsWithHeld : List LockOp → List Lock → List (Lock × List Lock)
  | [], _ => []
  | .acq l :: rest, held => (l, held) :: acquisitionsWithHeld rest (l :: held)
  | .rel l :: rest, held => acquisitionsWithHeld rest (held.filter (fun x => x ≠ l))

/-- The claim as stated: every acquisition happens with no listed lock held. -/
def noNestedAcq (p : List LockOp) : Bool :=
  (acquisitionsWithHeld p []).all (fun pr => pr.2.isEmpty)

/-- The amended discipline: only the event-queue spinlock is ever acquired
with another listed lock held, and no acquisition happens while holding the
event-queue spinlock, so the acquisition order is acyclic. -/
def onlyEventQueueNested (p : List LockOp) : Bool :=
  (acquisitionsWithHeld p []).all (fun pr =>
    (pr.2.isEmpty || pr.1 = Lock.eventQueue) && !(pr.2.contains Lock.eventQueue))

/-- A ring as `handle_new_client` first creates it: `calloc` zeroes the
record, then `init_circular_buffer` allocates the INIT_CONN_BUF_SIZE
buffer with both cursors at 0. -/
def empty_ring : circular_buffer :=
  init_circular_buffer
    { write_cursor := 0, read_cursor := 0, buf_size := 0, buffer := mallocBytes,
      allocated := false }

/-- A freshly accepted connection: `calloc`ed record after
`handle_new_client` ran (both rings empty, direct writes). -/
def fresh_conn : conn_info :=
  { use_write_buf := false, should_schedule := true, input := empty_ring, output := empty_ring }

/-- Ring state reached from the empty ring by writing 4095 bytes of 97,
consuming 4090 of them, then writing the 5 bytes 1,2,3,4,5 (the last write
wraps: 1 byte fits before the end, 4 wrap to the front). -/
def wrap_write_state : circular_buffer :=
  circbuf_write (circbuf_advance_read (circbuf_write empty_ring (fun _ => 97) 4095) 4090)
    (fun j => [1, 2, 3, 4, 5].getD j 0) 5

/-- Ring state reached from the empty ring by writing 4095 bytes, consuming
one, writing one more byte (an exact fill to the physical end of the buffer),
then consuming the 4095 readable bytes. -/
def exact_fill_state : circular_buffer :=
  circbuf_advance_read
    (circbuf_write (circbuf_advance_read (circbuf_write empty_ring (fun _ => 97) 4095) 1)
      (fun _ => 98) 1) 4095

/-- An empty input ring whose (equal) cursors sit at 5 rather than 0. -/
def idle_ring_at_5 : circular_buffer :=
  { write_cursor := 5, read_cursor := 5, buf_size := 4096, buffer := fun _ => 97,
    allocated := true }

/-- An input ring with readable bytes at physical 1..5 and no terminator
byte 10 among them. -/
def no_term_ring : circular_buffer :=
  { write_cursor := 6, read_cursor := 1, buf_size := 4096, buffer := fun _ => 97,
    allocated := true }

/-- A wrapped input ring of capacity 8: readable content is physical 5,6,7
then 0,1,2,3; the terminator byte 10 sits at physical 2, logical offset 5. -/
def wrapped_term_ring : circular_buffer :=
  { write_cursor := 4, read_cursor := 5, buf_size := 8,
    buffer := fun i => if i = 2 then 10 else 100 + i, allocated := true }

/-- A BUFFERED connection with 10 readable bytes queued in its output ring. -/
def buffered_conn : conn_info :=
  { use_write_buf := true, should_schedule := true, input := empty_ring,
    output := { write_cursor := 10, read_cursor := 0, buf_size := 4096,
                buffer := mallocBytes, allocated := true } }

end BloomdNet

namespace BloomdNet

section MemchrLemmas

theorem memchr_eq_none (buffer : Nat → Nat) (c : Nat) (off n : Nat)
    (h : ∀ i, i < n → buffer (off + i) ≠ c) :
    memchr buffer c off n = none := by
  induction n generalizing off with
  | zero => rfl
  | succ m ih =>
    have h0 : buffer off ≠ c := by
      have := h 0 (Nat.succ_pos m)
      simpa using this
    have hrest : ∀ i, i < m → buffer (off + 1 + i) ≠ c := by
      intro i hi
      have := h (i + 1) (Nat.succ_lt_succ hi)
      simpa [Nat.add_assoc, Nat.add_comm 1 i] using this
    simp [memchr, h0, ih (off + 1) hrest]

theorem memchr_eq_some (buffer : Nat → Nat) (c : Nat) (off n p : Nat)
    (hp : p < n) (hterm : buffer (off + p) = c)
    (hbefore : ∀ i, i < p → buffer (off + i) ≠ c) :
    memchr buffer c off n = some (off + p) := by
  induction n generalizing off p with
  | zero => omega
  | succ m ih =>
    by_cases h0 : buffer off = c
    · have hp0 : p = 0 := by
        by_contra hne
        have := hbefore 0 (Nat.pos_of_ne_zero hne)
        simp at this
        exact this h0
      subst hp0
      simp [memchr, h0]
    · have hpne : p ≠ 0 := by
        intro h
        subst h
        simp at hterm
        exact h0 hterm
      obtain ⟨q, rfl⟩ := Nat.exists_eq_succ_of_ne_zero hpne
      have hterm2 : buffer (off + 1 + q) = c := by
        have : off + 1 + q = off + (q + 1) := by omega
        rw [this]
        exact hterm
      have hbefore2 : ∀ i, i < q → buffer (off + 1 + i) ≠ c := by
        intro i hi
        have := hbefore (i + 1) (Nat.succ_lt_succ hi)
        have heq : off + 1 + i = off + (i + 1) := by omega
        rw [heq]
        exact this
      have := ih (off + 1) q (by omega) hterm2 hbefore2
      have hgoal : off + 1 + q = off + (q + 1) := by omega
      simp [memchr, h0, this, hgoal]

end MemchrLemmas

section ReadableLemmas

theorem readable_wrap (buf : circular_buffer) (h : buf.write_cursor < buf.read_cursor) :
    circbuf_readable buf =
      ((List.range (buf.buf_size - buf.read_cursor)).map
        (fun i => buf.buffer (buf.read_cursor + i))) ++
      ((List.range buf.write_cursor).map (fun i => buf.buffer i)) := by
  rw [circbuf_readable, circbuf_setup_writev_iovec, if_pos h]
  simp [iovec_bytes]

theorem readable_nowrap (buf : circular_buffer) (h : ¬ buf.write_cursor < buf.read_cursor) :
    circbuf_readable buf =
      (List.range (buf.write_cursor - buf.read_cursor)).map
        (fun i => buf.buffer (buf.read_cursor + i)) := by
  rw [circbuf_readable, circbuf_setup_writev_iovec, if_neg h]
  simp [iovec_bytes]

theorem get?_map_range (f : Nat → Nat) (n i : Nat) :
    ((List.range n).map f).get? i = if i < n then some (f i) else none := by
  by_cases h : i < n
  · rw [if_pos h, List.get?_map, List.get?_range h]
    rfl
  · rw [if_neg h, List.get?_eq_none]
    simpa using Nat.le_of_not_lt h

theorem map_range_congr (f g : Nat → Nat) {n m : Nat} (hnm : n = m)
    (h : ∀ i, i < n → f i = g i) :
    (List.range n).map f = (List.range m).map g := by
  subst hnm
  exact List.map_congr_left (fun a ha => h a (List.mem_range.mp ha))

theorem drop_map_range (f : Nat → Nat) (n k : Nat) :
    ((List.range n).map f).drop k = (List.range (n - k)).map (fun i => f (k + i)) := by
  apply List.ext_get?
  intro j
  rw [List.get?_drop, get?_map_range, get?_map_range]
  split_ifs with h1 h2 h2
  · rfl
  · omega
  · omega
  · rfl

theorem get?_append_map_range (f g : Nat → Nat) (n m j : Nat) :
    (((List.range n).map f) ++ ((List.range m).map g)).get? j =
      (if j < n then some (f j) else if j < n + m then some (g (j - n)) else none) := by
  by_cases h1 : j < n
  · rw [List.get?_append (by simpa using h1), get?_map_range, if_pos h1, if_pos h1]
  · rw [List.get?_append_right (by simpa using Nat.le_of_not_lt h1), if_neg h1,
      List.length_map, List.length_range, get?_map_range]
    split_ifs with h2 h3 h3
    · rfl
    · omega
    · omega
    · rfl

end ReadableLemmas

/-- C1 (code bug). `send_client_response` on a DIRECT connection with two
5-byte buffers and a partial `writev` of 7 bytes: the bytes pushed into the
output ring are `[3,4,5,6,7,8,9,10]` — bytes 2..4 of the *first* (already
fully transmitted) buffer followed by the whole second buffer — not the
unsent suffix `[8,9,10]` of the concatenated payload. The `index--`
adjustment in the skip loop backs up one buffer too far. The flag flip and
the SCHEDULE_WATCHER command do happen as claimed. -/
theorem direct_short_write_buffers_wrong_suffix :
    (send_client_response fresh_conn [[1, 2, 3, 4, 5], [6, 7, 8, 9, 10]] 2
        (WritevRes.sent 7)).1 = 0 ∧
    (send_client_response fresh_conn [[1, 2, 3, 4, 5], [6, 7, 8, 9, 10]] 2
        (WritevRes.sent 7)).2.1.use_write_buf = true ∧
    (send_client_response fresh_conn [[1, 2, 3, 4, 5], [6, 7, 8, 9, 10]] 2
        (WritevRes.sent 7)).2.2 = [AsyncCmd.SCHEDULE_WATCHER Watcher.writeWatcher] ∧
    circbuf_readable (send_client_response fresh_conn [[1, 2, 3, 4, 5], [6, 7, 8, 9, 10]] 2
        (WritevRes.sent 7)).2.1.output = [3, 4, 5, 6, 7, 8, 9, 10] ∧
    circbuf_readable (send_client_response fresh_conn [[1, 2, 3, 4, 5], [6, 7, 8, 9, 10]] 2
        (WritevRes.sent 7)).2.1.output ≠
      ([[1, 2, 3, 4, 5], [6, 7, 8, 9, 10]] : List (List Nat)).flatten.drop 7 := by
  refine ⟨rfl, rfl, rfl, by decide, by decide⟩

/-- C2 (code bug). Writing `S = 97^4095 ++ [1,2,3,4,5]` into the ring with a
consumption of 4090 bytes in between makes the final 5-byte write wrap; the
wrap branch of `circbuf_write` copies from the start of the input again
instead of from `in + end_size`, so the drained remainder reads
`[97,97,97,97,97,1,1,2,3,4]` instead of `S.drop 4090 = [97,...,97,1,2,3,4,5]`. -/
theorem circbuf_write_wrap_corrupts_stream :
    circbuf_readable wrap_write_state = [97, 97, 97, 97, 97, 1, 1, 2, 3, 4] ∧
    circbuf_readable wrap_write_state ≠
      (List.replicate 4095 97 ++ [1, 2, 3, 4, 5]).drop 4090 := by
  constructor
  · decide
  · decide

/-- C3 (code bug). From the empty ring, `write 4095; advance_read 1; write 1;
advance_read 4095` is a legal operation sequence (each write fits the
available space, each consume is at most the readable length), yet it drives
`write_cursor` to `buf_size` — violating `0 ≤ cursors < capacity` — and then
`circbuf_avail_buf` underflows in `uint32_t`, so
`available-for-write + logical-length` is 2^32 + 4095, not `capacity - 1`. -/
theorem ring_invariant_violated_by_exact_fill :
    exact_fill_state.buf_size = 4096 ∧
    exact_fill_state.write_cursor = 4096 ∧
    ¬ exact_fill_state.write_cursor < exact_fill_state.buf_size ∧
    circbuf_avail_buf exact_fill_state + circbuf_len exact_fill_state ≠
      exact_fill_state.buf_size - 1 := by
  refine ⟨by decide, by decide, by decide, by decide⟩

/-- C5 counterexample. On the empty ring whose equal cursors sit at 5,
`extract_to_terminator` does return -1 (no terminator), but the final
"minor optimization" resets both cursors to 0, so the cursors are *not*
left exactly as they were. -/
theorem extract_missing_term_resets_equal_cursors :
    (extract_to_terminator idle_ring_at_5 10).1 = none ∧
    idle_ring_at_5.read_cursor = 5 ∧ idle_ring_at_5.write_cursor = 5 ∧
    (extract_to_terminator idle_ring_at_5 10).2.read_cursor = 0 ∧
    (extract_to_terminator idle_ring_at_5 10).2.write_cursor = 0 := by
  exact ⟨rfl, rfl, rfl, by decide, by decide⟩

/-- C5 (amended). When the readable content contains no terminator byte,
`extract_to_terminator` returns -1 and leaves the ring untouched — except
that equal cursors (the empty ring) are reset to 0, which leaves the logical
content (empty) unchanged. -/
theorem extract_to_terminator_not_found (input : circular_buffer) (terminator : Nat)
    (h : terminator ∉ circbuf_readable input) :
    (extract_to_terminator input terminator).1 = none ∧
    (extract_to_terminator input terminator).2 =
      (if input.read_cursor = input.write_cursor then
        { input with read_cursor := 0, write_cursor := 0 }
      else input) := by
  by_cases hw : input.write_cursor < input.read_cursor
  · have hmem1 : ∀ i, i < input.buf_size - input.read_cursor →
        input.buffer (input.read_cursor + i) ≠ terminator := by
      intro i hi hc
      apply h
      rw [circbuf_readable, circbuf_setup_writev_iovec, if_pos hw]
      simp only [List.map_cons, List.map_nil, List.flatten, List.append_nil]
      apply List.mem_append_left
      rw [iovec_bytes]
      exact hc ▸ List.mem_map_of_mem _ (List.mem_range.mpr hi)
    have hmem2 : ∀ i, i < input.write_cursor →
        input.buffer (0 + i) ≠ terminator := by
      intro i hi hc
      apply h
      rw [circbuf_readable, circbuf_setup_writev_iovec, if_pos hw]
      simp only [List.map_cons, List.map_nil, List.flatten, List.append_nil]
      apply List.mem_append_right
      rw [iovec_bytes]
      exact hc ▸ List.mem_map_of_mem _ (List.mem_range.mpr hi)
    rw [extract_to_terminator, if_pos hw,
      memchr_eq_none _ _ _ _ hmem1, memchr_eq_none _ _ _ _ hmem2]
    exact ⟨rfl, rfl⟩
  · have hmem : ∀ i, i < input.write_cursor - input.read_cursor →
        input.buffer (input.read_cursor + i) ≠ terminator := by
      intro i hi hc
      apply h
      rw [circbuf_readable, circbuf_setup_writev_iovec, if_neg hw]
      simp only [List.map_cons, List.map_nil, List.flatten, List.append_nil]
      rw [iovec_bytes]
      exact hc ▸ List.mem_map_of_mem _ (List.mem_range.mpr hi)
    rw [extract_to_terminator, if_neg hw, memchr_eq_none _ _ _ _ hmem]
    exact ⟨rfl, rfl⟩

/-- C4. If the readable content of the input ring contains the terminator
byte first at logical offset `p` (whether or not the content wraps past the
physical end of the buffer), `extract_to_terminator` succeeds (returns 0),
sets `buf_len` to exactly `p + 1`, the returned buffer's last byte — index
`buf_len - 1 = p` — is the null byte that replaced the terminator, and the
remaining readable content is the old content with its first `p + 1` bytes
consumed, so the next extraction begins at logical offset `p + 1`. -/
theorem extract_to_terminator_found (input : circular_buffer) (terminator p : Nat)
    (hterm : (circbuf_readable input).get? p = some terminator)
    (hfirst : ∀ i, i < p → (circbuf_readable input).get? i ≠ some terminator) :
    ∃ out, (extract_to_terminator input terminator).1 = some out ∧
      out.buf_len = p + 1 ∧ out.out_buf p = 0 ∧
      circbuf_readable (extract_to_terminator input terminator).2 =
        (circbuf_readable input).drop (p + 1) := by
  by_cases hw : input.write_cursor < input.read_cursor
  case neg =>
    rw [readable_nowrap input hw] at hterm hfirst ⊢
    have hp : p < input.write_cursor - input.read_cursor := by
      by_contra hnp
      rw [get?_map_range, if_neg hnp] at hterm
      exact Option.noConfusion hterm
    have hbuf : input.buffer (input.read_cursor + p) = terminator := by
      rw [get?_map_range, if_pos hp] at hterm
      exact Option.some.inj hterm
    have hbef : ∀ i, i < p → input.buffer (input.read_cursor + i) ≠ terminator := by
      intro i hi hc
      apply hfirst i hi
      rw [get?_map_range, if_pos (Nat.lt_trans hi hp), hc]
    have hmc := memchr_eq_some input.buffer terminator input.read_cursor
      (input.write_cursor - input.read_cursor) p hp hbuf hbef
    have hev : extract_to_terminator input terminator =
        (some { buf_len := input.read_cursor + p - input.read_cursor + 1,
                out_buf := fun i =>
                  storeByte input.buffer (input.read_cursor + p) 0 (input.read_cursor + i),
                should_free := false },
         resetIfCaughtUp
           { input with buffer := storeByte input.buffer (input.read_cursor + p) 0,
                        read_cursor := input.read_cursor + p + 1 }) := by
      unfold extract_to_terminator
      rw [if_neg hw, hmc]
    rw [hev]
    refine ⟨_, rfl, by dsimp only; omega, by simp [storeByte], ?_⟩
    dsimp only
    unfold resetIfCaughtUp
    dsimp only
    rw [drop_map_range]
    by_cases heq : input.read_cursor + p + 1 = input.write_cursor
    · rw [if_pos heq, readable_nowrap _ (lt_irrefl 0)]
      have h0 : input.write_cursor - input.read_cursor - (p + 1) = 0 := by omega
      rw [h0]
      rfl
    · rw [if_neg heq,
        readable_nowrap _ (show ¬ input.write_cursor < input.read_cursor + p + 1 by omega)]
      dsimp only
      apply map_range_congr
      · omega
      · intro i hi
        show (if input.read_cursor + p + 1 + i = input.read_cursor + p then 0
              else input.buffer (input.read_cursor + p + 1 + i)) =
          input.buffer (input.read_cursor + (p + 1 + i))
        rw [if_neg (by omega)]
        congr 1
        omega
  case pos =>
    rw [readable_wrap input hw] at hterm hfirst ⊢
    rw [get?_append_map_range] at hterm
    by_cases hp1 : p < input.buf_size - input.read_cursor
    · -- The terminator lies in the contiguous tail-side region.
      rw [if_pos hp1] at hterm
      have hbuf : input.buffer (input.read_cursor + p) = terminator :=
        Option.some.inj hterm
      have hbef : ∀ i, i < p → input.buffer (input.read_cursor + i) ≠ terminator := by
        intro i hi hc
        apply hfirst i hi
        rw [get?_append_map_range, if_pos (Nat.lt_trans hi hp1), hc]
      have hmc := memchr_eq_some input.buffer terminator input.read_cursor
        (input.buf_size - input.read_cursor) p hp1 hbuf hbef
      have hev : extract_to_terminator input terminator =
          (some { buf_len := input.read_cursor + p - input.read_cursor + 1,
                  out_buf := fun i =>
                    storeByte input.buffer (input.read_cursor + p) 0 (input.read_cursor + i),
                  should_free := false },
           resetIfCaughtUp
             { input with buffer := storeByte input.buffer (input.read_cursor + p) 0,
                          read_cursor := input.read_cursor + p + 1 }) := by
        unfold extract_to_terminator
        rw [if_pos hw, hmc]
      rw [hev]
      refine ⟨_, rfl, by dsimp only; omega, by simp [storeByte], ?_⟩
      dsimp only
      unfold resetIfCaughtUp
      dsimp only
      rw [if_neg (show ¬ input.read_cursor + p + 1 = input.write_cursor by omega),
        readable_wrap
          { input with buffer := storeByte input.buffer (input.read_cursor + p) 0,
                       read_cursor := input.read_cursor + p + 1 }
          (show input.write_cursor < input.read_cursor + p + 1 by omega),
        List.drop_append_eq_append_drop, List.length_map, List.length_range]
      have h0 : p + 1 - (input.buf_size - input.read_cursor) = 0 := by omega
      rw [h0, List.drop_zero, drop_map_range]
      dsimp only
      congr 1
      · apply map_range_congr
        · omega
        · intro i hi
          show (if input.read_cursor + p + 1 + i = input.read_cursor + p then 0
                else input.buffer (input.read_cursor + p + 1 + i)) =
            input.buffer (input.read_cursor + (p + 1 + i))
          rw [if_neg (by omega)]
          congr 1
          omega
      · apply map_range_congr _ _ rfl
        intro i hi
        show (if i = input.read_cursor + p then 0 else input.buffer i) = input.buffer i
        rw [if_neg (by omega)]
    · -- The terminator lies in the head-side region past the wrap.
      rw [if_neg hp1] at hterm
      have hple : p < input.buf_size - input.read_cursor + input.write_cursor := by
        by_contra hnp
        rw [if_neg hnp] at hterm
        exact Option.noConfusion hterm
      rw [if_pos hple] at hterm
      have hbuf : input.buffer (p - (input.buf_size - input.read_cursor)) = terminator :=
        Option.some.inj hterm
      have hnone : memchr input.buffer terminator input.read_cursor
          (input.buf_size - input.read_cursor) = none := by
        apply memchr_eq_none
        intro j hj hc
        apply hfirst j (by omega)
        rw [get?_append_map_range, if_pos hj, hc]
      have hbuf0 : input.buffer (0 + (p - (input.buf_size - input.read_cursor))) =
          terminator := by
        rw [Nat.zero_add]
        exact hbuf
      have hbef2 : ∀ i, i < p - (input.buf_size - input.read_cursor) →
          input.buffer (0 + i) ≠ terminator := by
        intro i hi hc
        apply hfirst (input.buf_size - input.read_cursor + i) (by omega)
        rw [get?_append_map_range, if_neg (by omega), if_pos (by omega)]
        rw [Nat.zero_add] at hc
        have hsub : input.buf_size - input.read_cursor + i -
            (input.buf_size - input.read_cursor) = i := by omega
        rw [hsub, hc]
      have htw : p - (input.buf_size - input.read_cursor) < input.write_cursor := by
        omega
      have hmc2 := memchr_eq_some input.buffer terminator 0 input.write_cursor
        (p - (input.buf_size - input.read_cursor)) htw hbuf0 hbef2
      rw [Nat.zero_add] at hmc2
      have hev : extract_to_terminator input terminator =
          (some { buf_len := p - (input.buf_size - input.read_cursor) + 1 +
                    (input.buf_size - input.read_cursor),
                  out_buf := fun i =>
                    if i < input.buf_size - input.read_cursor then
                      input.buffer (input.read_cursor + i)
                    else
                      storeByte input.buffer (p - (input.buf_size - input.read_cursor)) 0
                        (i - (input.buf_size - input.read_cursor)),
                  should_free := true },
           resetIfCaughtUp
             { input with
                 buffer := storeByte input.buffer
                   (p - (input.buf_size - input.read_cursor)) 0,
                 read_cursor := p - (input.buf_size - input.read_cursor) + 1 }) := by
        unfold extract_to_terminator
        rw [if_pos hw, hnone, hmc2]
      rw [hev]
      refine ⟨_, rfl, by dsimp only; omega, ?_, ?_⟩
      · show (if p < input.buf_size - input.read_cursor then
            input.buffer (input.read_cursor + p)
          else
            storeByte input.buffer (p - (input.buf_size - input.read_cursor)) 0
              (p - (input.buf_size - input.read_cursor))) = 0
        rw [if_neg hp1, storeByte]
        simp
      · dsimp only
        unfold resetIfCaughtUp
        dsimp only
        rw [List.drop_append_eq_append_drop, List.length_map, List.length_range,
          List.drop_eq_nil_of_le (by simp; omega), List.nil_append, drop_map_range]
        have hsub1 : p + 1 - (input.buf_size - input.read_cursor) =
            p - (input.buf_size - input.read_cursor) + 1 := by omega
        rw [hsub1]
        by_cases heq : p - (input.buf_size - input.read_cursor) + 1 = input.write_cursor
        · rw [if_pos heq, readable_nowrap _ (lt_irrefl 0)]
          have h0 : input.write_cursor - (p - (input.buf_size - input.read_cursor) + 1) = 0 := by
            omega
          rw [h0]
          rfl
        · rw [if_neg heq,
            readable_nowrap
              { input with
                  buffer := storeByte input.buffer
                    (p - (input.buf_size - input.read_cursor)) 0,
                  read_cursor := p - (input.buf_size - input.read_cursor) + 1 }
              (show ¬ input.write_cursor <
                p - (input.buf_size - input.read_cursor) + 1 by omega)]
          dsimp only
          apply map_range_congr
          · omega
          · intro i hi
            show (if p - (input.buf_size - input.read_cursor) + 1 + i =
                  p - (input.buf_size - input.read_cursor) then 0
                else input.buffer (p - (input.buf_size - input.read_cursor) + 1 + i)) =
              input.buffer (p - (input.buf_size - input.read_cursor) + 1 + i)
            rw [if_neg (by omega)]

/-- C4 witness: the theorem applied to the wrapped capacity-8 ring whose
terminator (byte 10) sits at logical offset 5, past the wrap. -/
theorem extract_to_terminator_found_witness :
    ((circbuf_readable wrapped_term_ring).get? 5 = some 10) ∧
    (∀ i, i < 5 → (circbuf_readable wrapped_term_ring).get? i ≠ some 10) ∧
    ∃ out, (extract_to_terminator wrapped_term_ring 10).1 = some out ∧
      out.buf_len = 5 + 1 ∧ out.out_buf 5 = 0 ∧
      circbuf_readable (extract_to_terminator wrapped_term_ring 10).2 =
        (circbuf_readable wrapped_term_ring).drop (5 + 1) :=
  ⟨by decide, by decide,
   extract_to_terminator_found wrapped_term_ring 10 5 (by decide) (by decide)⟩

/-- C5 witness: the amended theorem applied to the ring with readable bytes
97,97,97,97,97 and terminator 10. -/
theorem extract_to_terminator_not_found_witness :
    (10 ∉ circbuf_readable no_term_ring) ∧
    (extract_to_terminator no_term_ring 10).1 = none ∧
    (extract_to_terminator no_term_ring 10).2 =
      (if no_term_ring.read_cursor = no_term_ring.write_cursor then
        { no_term_ring with read_cursor := 0, write_cursor := 0 }
      else no_term_ring) := by
  have hnotin : 10 ∉ circbuf_readable no_term_ring := by decide
  exact ⟨hnotin, extract_to_terminator_not_found no_term_ring 10 hnotin⟩

/-- C6 (code bug at one of the two cited sites). In src/bloomd/networking.c
the recheck after the leader lock proceeds into `ev_run` exactly when
`should_run` is true, as claimed; in the earlier revision kept as
src/unnamed/part_000 the condition is inverted: with `should_run` still true
the worker releases the lock and exits, and once `should_run` has just been
cleared it proceeds into the event loop instead. -/
theorem worker_recheck_inverted_in_old_revision :
    (∀ s, worker_recheck s = WorkerStep.runLoop ↔ s = true) ∧
    worker_recheck_old true = WorkerStep.exitLoop ∧
    worker_recheck_old false = WorkerStep.runLoop := by
  decide

/-- C8 counterexample. The trace of `handle_client_writebuf` (reschedule
branch) acquires the event-queue spinlock at a point where the connection's
output lock is held, so it is false that no listed lock is ever acquired
while another is held. -/
theorem writebuf_acquires_event_lock_under_output_lock :
    acquisitionsWithHeld (handle_client_writebuf_locks true) [] =
      [(Lock.output, []), (Lock.eventQueue, [Lock.output])] ∧
    corePaths.all noNestedAcq = false := by
  exact ⟨by decide, by decide⟩

/-- C8 (amended). Across the lock traces of the core's code paths, the only
lock ever acquired while another is held is the event-queue spinlock (inside
the output lock in `handle_client_writebuf`, and inside the leader mutex when
the async callback runs during `ev_run`), and no path acquires any listed
lock while holding the event-queue spinlock — the nesting order is acyclic,
so deadlock remains impossible. -/
theorem lock_nesting_only_into_event_queue :
    corePaths.all onlyEventQueueNested = true := by
  decide

/-- C9. `send_client_response` with a non-positive buffer count returns 0 and
changes nothing: the connection (rings, `use_write_buf`, schedulability) is
returned untouched and no async command is enqueued. -/
theorem send_client_response_no_bufs (conn : conn_info) (bufs : List (List Nat))
    (num_bufs : Int) (res : WritevRes) (h : num_bufs ≤ 0) :
    send_client_response conn bufs num_bufs res = (0, conn, []) := by
  rw [send_client_response, if_pos h]

/-- C9 witness: a call with `num_bufs = 0` on the buffered example
connection. -/
theorem send_client_response_no_bufs_witness :
    (0 : Int) ≤ 0 ∧
    send_client_response buffered_conn [[1, 2]] 0 (WritevRes.sent 0) = (0, buffered_conn, []) :=
  ⟨by decide, send_client_response_no_bufs buffered_conn [[1, 2]] 0 (WritevRes.sent 0) (by decide)⟩

/-- C10. Closing a connection and re-accepting on the same descriptor
reinitializes only the ring cursors (and the buffer allocation when it had
been freed) and re-marks it schedulable; neither `close_client_connection`
nor the accept path touches `use_write_buf`, so the reused record starts
with the previous connection's write-path state. -/
theorem reused_conn_keeps_use_write_buf (conn : conn_info) :
    (close_client_connection conn).use_write_buf = conn.use_write_buf ∧
    (handle_new_client_conn (close_client_connection conn)).1.use_write_buf =
      conn.use_write_buf ∧
    (handle_new_client_conn (close_client_connection conn)).1.should_schedule = true ∧
    (handle_new_client_conn (close_client_connection conn)).1.input.read_cursor = 0 ∧
    (handle_new_client_conn (close_client_connection conn)).1.input.write_cursor = 0 ∧
    (handle_new_client_conn (close_client_connection conn)).1.output.read_cursor = 0 ∧
    (handle_new_client_conn (close_client_connection conn)).1.output.write_cursor = 0 ∧
    (handle_new_client_conn (close_client_connection conn)).1.input.allocated = true ∧
    (handle_new_client_conn (close_client_connection conn)).1.output.allocated = true ∧
    (handle_new_client_conn (close_client_connection conn)).2 =
      [AsyncCmd.SCHEDULE_WATCHER Watcher.readWatcher] := by
  refine ⟨rfl, rfl, rfl, ?_, ?_, ?_, ?_, ?_, ?_, rfl⟩ <;>
    · simp only [handle_new_client_conn, close_client_connection, init_circular_buffer,
        circbuf_alloc, circbuf_reset]
      split_ifs <;> simp_all

/-- C7. When the write watcher fires on a BUFFERED connection and `writev`
reports `w > 0` bytes written, the output ring's read cursor is advanced by
`w` (via `circbuf_advance_read`); if the cursors then coincide (ring
drained), `use_write_buf` is cleared and no command is enqueued, otherwise
the connection is unchanged apart from the advanced ring and exactly one
SCHEDULE_WATCHER command for the write watcher is enqueued. -/
theorem handle_client_writebuf_progress (conn : conn_info) (w : Nat) (h : 0 < w) :
    handle_client_writebuf conn (WritevRes.sent w) =
      (let out2 := circbuf_advance_read conn.output w
       if out2.read_cursor = out2.write_cursor then
         ({ conn with output := out2, use_write_buf := false }, [])
       else
         ({ conn with output := out2 }, [AsyncCmd.SCHEDULE_WATCHER Watcher.writeWatcher])) := by
  obtain ⟨m, rfl⟩ := Nat.exists_eq_succ_of_ne_zero (Nat.pos_iff_ne_zero.mp h)
  rw [handle_client_writebuf]
  dsimp only
  split <;> rfl

/-- C7 witness: the theorem applied to the buffered example connection with a
partial drain of 4 of its 10 queued bytes. -/
theorem handle_client_writebuf_progress_witness :
    0 < 4 ∧
    handle_client_writebuf buffered_conn (WritevRes.sent 4) =
      (let out2 := circbuf_advance_read buffered_conn.output 4
       if out2.read_cursor = out2.write_cursor then
         ({ buffered_conn with output := out2, use_write_buf := false }, [])
       else
         ({ buffered_conn with output := out2 },
          [AsyncCmd.SCHEDULE_WATCHER Watcher.writeWatcher])) :=
  ⟨by decide, handle_client_writebuf_progress buffered_conn 4 (by decide)⟩

end BloomdNet
